import Mathlib

/-!
# Verification of the mowing-game simulation core

Shallow embedding, in Lean 4, of the simulation core of the `mow` repository:
`GrassSystem` (blade records and the `mow` / `reset` / `getMowedPercentage`
operations), `TerrainGenerator` (chunked height-field with pond depressions,
`calculateHeightAt`, `generateChunkHeightMap`, `getHeightAt`), the streaming
`TerrainGenerator` revision with `updateVisibleChunks`, and `SceneryGenerator`
(`generateScenery`, `checkForDiscovery`).

Modelling conventions:
* JavaScript numbers are modelled as exact rationals (`ℚ`).
* `Math.sqrt` is modelled by `ratSqrt`, the floor-style rational square root
  (exact on perfect squares; every concrete input used in a theorem below is
  a perfect square, where `ratSqrt` and the real square root agree).
* `Math.pow(h, 1.5)` is modelled by `jsPow15 h = h * ratSqrt h`
  (`h ^ 1.5 = h * h ^ 0.5` for `h ≥ 0`).
* `Math.random()` is a stateful global RNG; it is modelled by an explicit
  draw stream `rand : ℕ → ℚ` together with explicit draw indices
  (call site `k` of a run reads `rand k`), which is exactly the sequence of
  values the source's successive `Math.random()` calls return.
* A JavaScript `number` result that can be `NaN`/`Infinity` (division by
  zero) is modelled as `Option ℚ`, `none` standing for the non-finite result.
* `Math.cos` / `Math.sin` / `Math.PI` are transcendental; they are carried
  as oracle parameters (`cosO`, `sinO`, `piQ`) of the scenery generator.
* Mutable instance state is passed explicitly as records; `THREE.js`
  meshes/materials and other rendering-only state are dropped, except where
  control flow reads them (the `grassMesh === null` early return is kept as
  a `Bool` field).
-/

namespace Mow

attribute [local semireducible] Rat.mul Rat.add Rat.sub Rat.inv

/-- Floor square root on `ℕ` (the largest `r` with `r * r ≤ n`), written as
a bounded search so that it evaluates by definitional unfolding
(`Nat.sqrt`'s well-founded recursion does not). -/
def natSqrtLin (n : ℕ) : ℕ :=
  (List.range (n + 1)).foldl (fun acc r => if r * r ≤ n then r else acc) 0

/-- Floor square root on `ℤ` (`0` below zero, matching `Int.sqrt`). -/
def intSqrtLin (i : ℤ) : ℤ := natSqrtLin i.toNat

/-- `Math.sqrt`, modelled as the exact rational square root: floor square
root of the numerator over floor square root of the denominator.  Exact
whenever the argument is a square of a rational; every concrete square-root
argument appearing in a theorem below is one. -/
def ratSqrt (q : ℚ) : ℚ := mkRat (intSqrtLin q.num) (natSqrtLin q.den)

/-- `Math.pow(h, 1.5)`, via `h ^ 1.5 = h * √h`. -/
def jsPow15 (q : ℚ) : ℚ := q * ratSqrt q

/-- A 3-component vector of rationals (`THREE.Vector3`). -/
structure Vec3 where
  x : ℚ
  y : ℚ
  z : ℚ
deriving DecidableEq, Repr

/-! ## GrassSystem (src/client/src/lib/game/GrassSystem.ts)

One entry of `grassData`: `{position, scale, rotation, state}` where
`state` is `0` (not mowed) or `1` (mowed), as in the source. -/

structure Blade where
  position : Vec3
  scale : ℚ
  rotation : ℚ
  state : ℕ
deriving DecidableEq, Repr

/-- The mutable state of a `GrassSystem` instance that the mowing operations
read or write: the `grassMesh !== null` flag (checked by `mow`), `grassData`,
the `mowedGrass` counter and the `totalGrass` counter. -/
structure GrassState where
  grassMesh : Bool
  grassData : List Blade
  mowedGrass : ℕ
  totalGrass : ℕ
deriving Repr

/-- `const mowRadius = 0.8` in `GrassSystem.mow`. -/
def mowRadius : ℚ := 8 / 10

/-- The test `mow` applies to one blade: not already mowed, and squared
planar distance to the mower below `mowRadius * mowRadius` (strict). -/
def bladeHit (pos : Vec3) (b : Blade) : Bool :=
  b.state != 1 &&
    ((b.position.x - pos.x) * (b.position.x - pos.x) +
     (b.position.z - pos.z) * (b.position.z - pos.z)
      < mowRadius * mowRadius)

/-- The per-blade effect of the `mow` loop body. -/
def mowBlade (pos : Vec3) (b : Blade) : Blade :=
  if bladeHit pos b then { b with state := 1 } else b

/-- `GrassSystem.mow(position, direction)`: early-returns `0` when
`grassMesh` is null; otherwise walks `grassData`, cutting every not-yet-mowed
blade within the cutting radius of `position`, increments `mowedGrass` per cut
and returns the number cut this call.  The `direction` argument is accepted
and, as in the source, never read.  The imperative in-place loop is rendered
as a map over the blades plus a count of the blades the loop cuts. -/
def mow (s : GrassState) (position : Vec3) (direction : Vec3) :
    GrassState × ℕ :=
  if !s.grassMesh then (s, 0) else
    let mowedThisFrame := s.grassData.countP (bladeHit position)
    ({ s with grassData := s.grassData.map (mowBlade position),
              mowedGrass := s.mowedGrass + mowedThisFrame },
     mowedThisFrame)

/-- `GrassSystem.reset()`: every blade back to state `0`, counter to `0`. -/
def resetGrass (s : GrassState) : GrassState :=
  { s with grassData := s.grassData.map (fun b => { b with state := 0 }),
           mowedGrass := 0 }

/-- `GrassSystem.getMowedPercentage()`:
`(this.mowedGrass / this.totalGrass) * 100`.  JavaScript division by zero
produces `NaN` (or `Infinity`), modelled as `none`. -/
def getMowedPercentage (s : GrassState) : Option ℚ :=
  if (s.totalGrass : ℚ) = 0 then none
  else some ((s.mowedGrass : ℚ) / (s.totalGrass : ℚ) * 100)

/-- A sequence of `mow` calls (position/direction pairs), folded over the
state, discarding the per-call counts. -/
def applyMows (s : GrassState) (calls : List (Vec3 × Vec3)) : GrassState :=
  calls.foldl (fun s c => (mow s c.1 c.2).1) s

/-- A blade is within the swept radius of the call at `pos`
(regardless of its cut state). -/
def bladeInRadius (pos : Vec3) (b : Blade) : Bool :=
  (b.position.x - pos.x) * (b.position.x - pos.x) +
    (b.position.z - pos.z) * (b.position.z - pos.z)
    < mowRadius * mowRadius

theorem bladeHit_eq (pos : Vec3) (b : Blade) :
    bladeHit pos b = (b.state != 1 && bladeInRadius pos b) := rfl

theorem mow_mesh_false (s : GrassState) (p d : Vec3) (h : s.grassMesh = false) :
    mow s p d = (s, 0) := by
  simp [mow, h]

theorem mowBlade_state (pos : Vec3) (b : Blade) :
    (mowBlade pos b).state = if bladeHit pos b then 1 else b.state := by
  unfold mowBlade
  split <;> simp

/-- `mow` never un-cuts: a blade in state `1` stays in state `1`. -/
theorem mowBlade_mono (pos : Vec3) (b : Blade) (h : b.state = 1) :
    (mowBlade pos b).state = 1 := by
  rw [mowBlade_state]
  split <;> simp [h]

theorem mow_grassData (s : GrassState) (p d : Vec3) (h : s.grassMesh = true) :
    (mow s p d).1.grassData = s.grassData.map (mowBlade p) := by
  simp [mow, h]

theorem applyMows_nil (s : GrassState) : applyMows s [] = s := rfl

theorem applyMows_cons (s : GrassState) (c : Vec3 × Vec3)
    (cs : List (Vec3 × Vec3)) :
    applyMows s (c :: cs) = applyMows ((mow s c.1 c.2).1) cs := rfl

theorem mow_get?_state (s : GrassState) (p d : Vec3) (i : ℕ) (b : Blade)
    (hb : s.grassData[i]? = some b) :
    (mow s p d).1.grassData[i]? =
      some (if s.grassMesh then mowBlade p b else b) := by
  cases hm : s.grassMesh with
  | false => simp [mow, hm, hb]
  | true => simp [mow, hm, List.getElem?_map, hb]

/-- One `mow` call keeps cut blades cut. -/
theorem mow_state_mono (s : GrassState) (p d : Vec3) (i : ℕ) (b : Blade)
    (hb : s.grassData[i]? = some b) (h1 : b.state = 1) :
    ∃ b', (mow s p d).1.grassData[i]? = some b' ∧ b'.state = 1 := by
  rcases hm : s.grassMesh with _ | _
  · exact ⟨b, by simpa [mow_get?_state s p d i b hb, hm], h1⟩
  · exact ⟨mowBlade p b, by simpa [mow_get?_state s p d i b hb, hm],
      mowBlade_mono p b h1⟩

/-- C3 (main part): cut state survives any sequence of `mow` calls. -/
theorem applyMows_state_mono (calls : List (Vec3 × Vec3)) :
    ∀ (s : GrassState) (i : ℕ) (b : Blade),
      s.grassData[i]? = some b → b.state = 1 →
      ∃ b', (applyMows s calls).grassData[i]? = some b' ∧ b'.state = 1 := by
  induction calls with
  | nil => exact fun s i b hb h1 => ⟨b, hb, h1⟩
  | cons c cs ih =>
    intro s i b hb h1
    obtain ⟨b', hb', h1'⟩ := mow_state_mono s c.1 c.2 i b hb h1
    exact (applyMows_cons s c cs) ▸ ih _ i b' hb' h1'

/-- C3 claim: *For every blade, the cut state is monotonic: once a blade is
Cut, no sequence of subsequent mow calls ever sets it back to Uncut; only
reset() returns blades to Uncut.*  First conjunct: if blade `i` of the state
is in state `1` (Cut), then after any further sequence of `mow` calls blade
`i` is still present and still in state `1`.  Second conjunct: `reset()`
sets every blade to state `0` (Uncut) and zeroes the mowed counter. -/
theorem c3_cut_state_monotonic (s : GrassState) (calls : List (Vec3 × Vec3))
    (i : ℕ) (b : Blade) (hb : s.grassData[i]? = some b)
    (h1 : b.state = 1) :
    (∃ b', (applyMows s calls).grassData[i]? = some b' ∧ b'.state = 1) ∧
    (∀ b'' ∈ (resetGrass s).grassData, b''.state = 0) ∧
    (resetGrass s).mowedGrass = 0 := by
  refine ⟨applyMows_state_mono calls s i b hb h1, ?_, rfl⟩
  intro b'' hb''
  simp only [resetGrass, List.mem_map] at hb''
  obtain ⟨a, _, rfl⟩ := hb''
  rfl

/-- Witness for C3 at a concrete state: one cut blade at the origin,
mowed twice more; it stays cut, and reset un-cuts it. -/
theorem c3_cut_state_monotonic_witness :
    let b : Blade := ⟨⟨0, 0, 0⟩, 1, 0, 1⟩
    let s : GrassState := ⟨true, [b], 1, 1⟩
    let calls : List (Vec3 × Vec3) :=
      [(⟨0, 0, 0⟩, ⟨0, 0, 1⟩), (⟨5, 0, 5⟩, ⟨0, 0, 1⟩)]
    (∃ b', (applyMows s calls).grassData[0]? = some b' ∧ b'.state = 1) ∧
    (∀ b'' ∈ (resetGrass s).grassData, b''.state = 0) ∧
    (resetGrass s).mowedGrass = 0 :=
  c3_cut_state_monotonic _ _ 0 _ rfl rfl

/-- C4 counterexample: the claim says `getCoveragePercent()` returns `0`
(a finite number) in the state where the total blade count is `0`; the
source has no zero-guard, so `(0 / 0) * 100` is `NaN` (modelled `none`),
not `0`. -/
theorem c4_counterexample :
    getMowedPercentage ⟨true, [], 0, 0⟩ ≠ some 0 := by
  simp [getMowedPercentage]

/-- C4 amended: *The coverage-percent query returns
`cutCount / totalBladeCount * 100` whenever `totalBladeCount` is nonzero; in
the state where `totalBladeCount` is `0` the unguarded division produces a
non-finite value (`NaN`), not `0`.* -/
theorem c4_coverage_percent (s : GrassState) :
    (s.totalGrass ≠ 0 →
      getMowedPercentage s =
        some ((s.mowedGrass : ℚ) / (s.totalGrass : ℚ) * 100)) ∧
    (s.totalGrass = 0 → getMowedPercentage s = none) := by
  constructor
  · intro h
    simp [getMowedPercentage, h]
  · intro h
    simp [getMowedPercentage, h]

theorem c4_coverage_percent_witness :
    getMowedPercentage ⟨true, [], 3, 10⟩ = some ((3 : ℚ) / 10 * 100) :=
  (c4_coverage_percent ⟨true, [], 3, 10⟩).1 (by decide)

/-- C10 claim: *The mow cut predicate is omnidirectional and
boundary-exclusive: a blade is cut if and only if it is Uncut and its squared
planar distance to the focal position is strictly less than the square of the
fixed radius 0.8; the heading argument has no effect on which blades are cut,
and a blade at planar distance exactly 0.8 stays Uncut.*  Conjuncts:
(a) with the mesh present, blade `i` after the call is `mowBlade position`
of blade `i` before; (b) an Uncut blade ends Cut iff its squared planar
distance is `< 0.8 * 0.8` (strict, so distance exactly `0.8` stays Uncut);
(c) a Cut blade stays Cut regardless of distance; (d) the `direction`
argument never changes the result. -/
theorem c10_cut_predicate (s : GrassState) (p d : Vec3) (i : ℕ) (b : Blade)
    (hm : s.grassMesh = true) (hb : s.grassData[i]? = some b) :
    ((mow s p d).1.grassData[i]? = some (mowBlade p b)) ∧
    (b.state ≠ 1 →
      ((mowBlade p b).state = 1 ↔
        (b.position.x - p.x) * (b.position.x - p.x) +
          (b.position.z - p.z) * (b.position.z - p.z)
          < (8 / 10 : ℚ) * (8 / 10))) ∧
    (b.state = 1 → (mowBlade p b).state = 1) ∧
    (∀ d₁ d₂ : Vec3, mow s p d₁ = mow s p d₂) := by
  refine ⟨by simpa [hm] using mow_get?_state s p d i b hb, ?_, ?_, fun _ _ => rfl⟩
  · intro h1
    have hb1 : (b.state != 1) = true := by simpa using h1
    have hiff : bladeHit p b = true ↔
        ((b.position.x - p.x) * (b.position.x - p.x) +
          (b.position.z - p.z) * (b.position.z - p.z)
          < (8 / 10 : ℚ) * (8 / 10)) := by
      simp [bladeHit, hb1, mowRadius]
    rw [mowBlade_state]
    rcases hhit : bladeHit p b with _ | _
    · rw [if_neg (by simp)]
      exact iff_of_false h1 (fun hr => by simp [hiff.mpr hr] at hhit)
    · rw [if_pos rfl]
      exact iff_of_true rfl (hiff.mp hhit)
  · exact mowBlade_mono p b

/-- Witness for C10: the spec's three-blade fixture at planar distances
`0.5`, `0.8` and `1.0` from the mow position; the `0.5` blade is cut, the
`0.8` blade (boundary) and the `1.0` blade stay Uncut. -/
theorem c10_cut_predicate_witness :
    ((mowBlade ⟨0, 0, 0⟩ ⟨⟨1/2, 0, 0⟩, 1, 0, 0⟩).state = 1 ↔
      ((1/2 : ℚ) - 0) * ((1/2 : ℚ) - 0) + ((0 : ℚ) - 0) * ((0 : ℚ) - 0)
        < (8 / 10 : ℚ) * (8 / 10)) ∧
    ((mowBlade ⟨0, 0, 0⟩ ⟨⟨8/10, 0, 0⟩, 1, 0, 0⟩).state = 1 ↔
      ((8/10 : ℚ) - 0) * ((8/10 : ℚ) - 0) + ((0 : ℚ) - 0) * ((0 : ℚ) - 0)
        < (8 / 10 : ℚ) * (8 / 10)) ∧
    ((mowBlade ⟨0, 0, 0⟩ ⟨⟨1, 0, 0⟩, 1, 0, 0⟩).state = 1 ↔
      ((1 : ℚ) - 0) * ((1 : ℚ) - 0) + ((0 : ℚ) - 0) * ((0 : ℚ) - 0)
        < (8 / 10 : ℚ) * (8 / 10)) :=
  let s : GrassState := ⟨true,
    [⟨⟨1/2, 0, 0⟩, 1, 0, 0⟩, ⟨⟨8/10, 0, 0⟩, 1, 0, 0⟩, ⟨⟨1, 0, 0⟩, 1, 0, 0⟩], 0, 3⟩
  ⟨(c10_cut_predicate s ⟨0,0,0⟩ ⟨0,0,1⟩ 0 ⟨⟨1/2, 0, 0⟩, 1, 0, 0⟩
      rfl rfl).2.1 (by decide),
   (c10_cut_predicate s ⟨0,0,0⟩ ⟨0,0,1⟩ 1 ⟨⟨8/10, 0, 0⟩, 1, 0, 0⟩
      rfl rfl).2.1 (by decide),
   (c10_cut_predicate s ⟨0,0,0⟩ ⟨0,0,1⟩ 2 ⟨⟨1, 0, 0⟩, 1, 0, 0⟩
      rfl rfl).2.1 (by decide)⟩

/-- A blade was within the swept radius of at least one of the calls. -/
def everInRadius (calls : List (Vec3 × Vec3)) (b : Blade) : Bool :=
  calls.any (fun c => bladeInRadius c.1 b)

/-- Cumulative effect on an initially-Uncut blade of a call sequence: Cut
exactly when some call swept over it. -/
def cutIfHit (calls : List (Vec3 × Vec3)) (b : Blade) : Blade :=
  if everInRadius calls b then { b with state := 1 } else b

theorem mow_grassMesh (s : GrassState) (p d : Vec3) :
    (mow s p d).1.grassMesh = s.grassMesh := by
  unfold mow
  split <;> rfl

theorem applyMows_append_singleton (s : GrassState)
    (l : List (Vec3 × Vec3)) (c : Vec3 × Vec3) :
    applyMows s (l ++ [c]) = (mow (applyMows s l) c.1 c.2).1 := by
  simp [applyMows, List.foldl_append]

theorem everInRadius_append_singleton (l : List (Vec3 × Vec3))
    (c : Vec3 × Vec3) (b : Blade) :
    everInRadius (l ++ [c]) b = (everInRadius l b || bladeInRadius c.1 b) := by
  simp [everInRadius]

theorem countP_split (l : List Blade) (p q : Blade → Bool) :
    l.countP (fun b => p b || q b) =
      l.countP p + l.countP (fun b => !p b && q b) := by
  induction l with
  | nil => rfl
  | cons a t ih =>
    rcases hp : p a with _ | _ <;> rcases hq : q a with _ | _ <;>
      simp [List.countP_cons, hp, hq, ih] <;> omega

/-- Pointwise step: on an Uncut blade, a further `mow` at `c` composed with
the cumulative effect of `l` is the cumulative effect of `l ++ [c]`. -/
theorem mowBlade_cutIfHit (l : List (Vec3 × Vec3)) (c : Vec3 × Vec3)
    (b : Blade) (hun : b.state ≠ 1) :
    mowBlade c.1 (cutIfHit l b) = cutIfHit (l ++ [c]) b := by
  unfold cutIfHit
  rw [everInRadius_append_singleton]
  rcases hev : everInRadius l b with _ | _
  · rcases hin : bladeInRadius c.1 b with _ | _
    · simp only [Bool.false_or, hin, if_neg Bool.false_ne_true]
      simp [mowBlade, bladeHit_eq, hin]
    · simp only [Bool.false_or, hin, if_pos rfl]
      simp [mowBlade, bladeHit_eq, hin, hun]
  · simp [mowBlade, bladeHit_eq]

theorem bladeHit_cutIfHit (l : List (Vec3 × Vec3)) (p : Vec3)
    (b : Blade) (hun : b.state ≠ 1) :
    bladeHit p (cutIfHit l b) = (!everInRadius l b && bladeInRadius p b) := by
  unfold cutIfHit
  rcases hev : everInRadius l b with _ | _
  · simp [bladeHit_eq, hun]
  · simp [bladeHit_eq]

/-- Characterization of a whole `mow` sequence over an initially-Uncut
population: the blade list becomes `cutIfHit calls` of the initial list, and
the counter advances by the number of blades some call swept over. -/
theorem applyMows_char (s : GrassState) (hm : s.grassMesh = true)
    (hun : ∀ b ∈ s.grassData, b.state ≠ 1) (calls : List (Vec3 × Vec3)) :
    (applyMows s calls).grassData = s.grassData.map (cutIfHit calls) ∧
    (applyMows s calls).mowedGrass =
      s.mowedGrass + s.grassData.countP (everInRadius calls) ∧
    (applyMows s calls).grassMesh = true := by
  induction calls using List.reverseRecOn with
  | nil =>
    refine ⟨?_, ?_, hm⟩
    · have hid : ∀ b, cutIfHit [] b = b := fun b => by
        simp [cutIfHit, everInRadius]
      have : List.map (cutIfHit []) s.grassData = s.grassData := by
        rw [List.map_congr_left fun b _ => hid b]
        exact List.map_id _
      rw [applyMows_nil, this]
    · simp [applyMows, everInRadius]
  | append_singleton l c ih =>
    obtain ⟨hd, hc, hmesh⟩ := ih
    rw [applyMows_append_singleton]
    refine ⟨?_, ?_, by rw [mow_grassMesh]; exact hmesh⟩
    · rw [mow_grassData _ c.1 c.2 hmesh, hd, List.map_map]
      exact List.map_congr_left fun b hb =>
        mowBlade_cutIfHit l c b (hun b hb)
    · have hmow : (mow (applyMows s l) c.1 c.2).1.mowedGrass =
          (applyMows s l).mowedGrass +
            (applyMows s l).grassData.countP (bladeHit c.1) := by
        simp [mow, hmesh]
      rw [hmow, hc, hd, List.countP_map]
      have hpt : s.grassData.countP (bladeHit c.1 ∘ cutIfHit l) =
          s.grassData.countP (fun b => !everInRadius l b &&
            bladeInRadius c.1 b) :=
        List.countP_congr fun b hb => by
          rw [Function.comp_apply, bladeHit_cutIfHit l c.1 b (hun b hb)]
      have hsplit := countP_split s.grassData (everInRadius l)
        (bladeInRadius c.1)
      have hcong : s.grassData.countP (everInRadius (l ++ [c])) =
          s.grassData.countP
            (fun b => everInRadius l b || bladeInRadius c.1 b) :=
        List.countP_congr fun b _ => by
          rw [everInRadius_append_singleton]
      rw [hpt, hcong, hsplit]
      omega

/-- C5 claim: *Each mow call returns exactly the number of blades newly
transitioned from Uncut to Cut during that call, and after any sequence of N
mow calls the accumulated cut count equals the number of distinct blades that
were ever within the mowing radius of some call's focal position — no blade
is counted twice and no uncut blade within radius is missed.*
First conjunct: for any state with the mesh present, the value `mow` returns
equals the number of list entries whose state changed from `≠ 1` to `1` in
that call.  Second conjunct: starting from a state where every blade is
Uncut and the counter is `0`, after any call sequence the counter equals the
number of blade entries that were within the mowing radius of at least one
call. -/
theorem c5_coverage_conservation (s : GrassState) (hm : s.grassMesh = true)
    (hun : ∀ b ∈ s.grassData, b.state ≠ 1) (h0 : s.mowedGrass = 0)
    (calls : List (Vec3 × Vec3)) :
    (∀ p d : Vec3, (mow s p d).2 =
      s.grassData.countP
        (fun b => (mowBlade p b).state == 1 && b.state != 1)) ∧
    (applyMows s calls).mowedGrass =
      s.grassData.countP (everInRadius calls) := by
  constructor
  · intro p d
    have hret : (mow s p d).2 = s.grassData.countP (bladeHit p) := by
      simp [mow, hm]
    rw [hret]
    refine List.countP_congr fun b _ => ?_
    rcases hhit : bladeHit p b with _ | _
    · have hstate : (mowBlade p b).state = b.state := by
        rw [mowBlade_state, hhit]
        simp
      simp only [hstate, hhit, Bool.false_eq_true, false_iff,
        Bool.and_eq_true, beq_iff_eq, bne_iff_ne, ne_eq, not_and]
      intro h1 hne
      exact hne h1
    · have hstate : (mowBlade p b).state = 1 := by
        rw [mowBlade_state, hhit]
        rfl
      have hb1 : (b.state != 1) = true := by
        have := hhit
        unfold bladeHit at this
        exact Bool.and_elim_left this
      simp [hstate, hb1]
  · rw [(applyMows_char s hm hun calls).2.1, h0]
    omega

/-- Witness for C5: three Uncut blades; two calls sweep, in turn, the first
blade and then the first two; the final count is `2` — the blade hit twice
is counted once, the far blade not at all — and the first call reports `1`
newly cut blade. -/
theorem c5_coverage_conservation_witness :
    let b1 : Blade := ⟨⟨0, 0, 0⟩, 1, 0, 0⟩
    let b2 : Blade := ⟨⟨1, 0, 0⟩, 1, 0, 0⟩
    let b3 : Blade := ⟨⟨9, 0, 9⟩, 1, 0, 0⟩
    let s : GrassState := ⟨true, [b1, b2, b3], 0, 3⟩
    let calls : List (Vec3 × Vec3) :=
      [(⟨0, 0, 0⟩, ⟨0, 0, 1⟩), (⟨1/2, 0, 0⟩, ⟨0, 0, 1⟩)]
    (∀ p d : Vec3, (mow s p d).2 =
      s.grassData.countP
        (fun b => (mowBlade p b).state == 1 && b.state != 1)) ∧
    (applyMows s calls).mowedGrass =
      s.grassData.countP (everInRadius calls) :=
  c5_coverage_conservation _ rfl (by decide) rfl _

/-! ## TerrainGenerator (src/client/src/lib/game/TerrainGenerator.ts)

Constants from the source: `chunkSize = 50`, `chunkResolution = 1`,
`maxHeight = 1.2`, `waterLevel = 0.15`, grid side
`ceil(chunkSize / chunkResolution) + 1 = 51`.  The seeded `noise2D`
library primitive is carried as a function-valued field; `Math.random()`
draws (pond generation, seeding) come from an explicit stream. -/

/-- One pond descriptor `{x, z, radius}` from `pondLocations`. -/
structure Pond where
  x : ℚ
  z : ℚ
  radius : ℚ
deriving DecidableEq, Repr

/-- Mutable `TerrainGenerator` state read by the height pipeline: the seed,
the noise primitive, the cached per-chunk height maps (`chunks`, keyed by
chunk coordinate; meshes dropped), the per-chunk pond lists, and the
position in the `Math.random()` draw stream. -/
structure TGState where
  seed : ℚ
  noise2D : ℚ → ℚ → ℚ
  chunks : ℤ × ℤ → Option (List (List ℚ))
  pondLocations : ℤ × ℤ → Option (List Pond)
  rngIdx : ℕ

def waterLevel : ℚ := 15 / 100

def terrainMaxHeight : ℚ := 12 / 10

/-- The four-octave noise loop of `calculateHeightAt`: amplitude starts at
`0.5` and halves after each octave, frequency starts at `1` and doubles. -/
def octaveHeight (noise : ℚ → ℚ → ℚ) (nx nz : ℚ) : ℚ :=
  (List.range 4).foldl
    (fun h o => h + noise (nx * 2 ^ o) (nz * 2 ^ o) * (1 / 2 * (1 / 2) ^ o)) 0

/-- The per-pond body of the two pond loops in `calculateHeightAt`: inside
the radius the height is set to a depth below water level; inside `1.5×` the
radius it is blended toward water level. -/
def applyPond (x z h : ℚ) (p : Pond) : ℚ :=
  let dx := x - p.x
  let dz := z - p.z
  let distanceToPond := ratSqrt (dx * dx + dz * dz)
  if distanceToPond < p.radius then
    let depthFactor := 1 - distanceToPond / p.radius
    let pondDepth := 1 / 10 + 2 / 10 * depthFactor
    waterLevel - pondDepth
  else if distanceToPond < p.radius * (15 / 10) then
    let transitionFactor :=
      1 - (distanceToPond - p.radius) / (p.radius * (5 / 10))
    h * (1 - transitionFactor) + waterLevel * transitionFactor
  else h

/-- `pondLocations.has(key) ? pondLocations.get(key) : no iteration`. -/
def pondList (s : TGState) (c : ℤ × ℤ) : List Pond :=
  (s.pondLocations c).getD []

/-- The `neighborChunks` key list of `calculateHeightAt`, in source order. -/
def neighborChunks (cx cz : ℤ) : List (ℤ × ℤ) :=
  [(cx - 1, cz), (cx + 1, cz), (cx, cz - 1), (cx, cz + 1),
   (cx - 1, cz - 1), (cx + 1, cz - 1), (cx - 1, cz + 1), (cx + 1, cz + 1)]

/-- `TerrainGenerator.calculateHeightAt(x, z)`: seeded multi-octave noise,
normalized to `0..1`, shaped by `Math.pow(·, 1.5)`, scaled by `maxHeight`,
then modified by the ponds of the containing chunk and of its 8 neighbours,
in source iteration order. -/
def calculateHeightAt (s : TGState) (x z : ℚ) : ℚ :=
  let nx := x * (2 / 100) + s.seed
  let nz := z * (2 / 100) + s.seed
  let base := octaveHeight s.noise2D nx nz
  let h1 := (base + 1) * (1 / 2)
  let h2 := jsPow15 h1
  let h3 := h2 * terrainMaxHeight
  let cx : ℤ := ⌊x / 50⌋
  let cz : ℤ := ⌊z / 50⌋
  let own := (pondList s (cx, cz)).foldl (fun h p => applyPond x z h p) h3
  (neighborChunks cx cz).foldl
    (fun h k => (pondList s k).foldl (fun h p => applyPond x z h p) h) own

/-- `TerrainGenerator.generateChunkHeightMap(chunkX, chunkZ)`: a
`51 × 51` grid (`gridSize = ceil(50 / 1) + 1`), entry `[z][x]` sampling
`calculateHeightAt` at world position
`(chunkX * 50 + x * 1, chunkZ * 50 + z * 1)`. -/
def generateChunkHeightMap (s : TGState) (cx cz : ℤ) : List (List ℚ) :=
  (List.range 51).map fun (zi : ℕ) =>
    (List.range 51).map fun (xi : ℕ) =>
      calculateHeightAt s ((cx : ℚ) * 50 + (xi : ℚ)) ((cz : ℚ) * 50 + (zi : ℚ))

/-- `TerrainGenerator.generatePondsForChunk(chunkX, chunkZ)`:
`Math.floor(Math.random() * 2)` ponds, each from three further draws
(`localX`, `localZ`, `radius ∈ [3, 8)`), stored under the chunk key. -/
def generatePondsForChunk (rand : ℕ → ℚ) (s : TGState) (cx cz : ℤ) :
    TGState :=
  let pondCount : ℕ := (⌊rand s.rngIdx * 2⌋).toNat
  let ponds : List Pond := (List.range pondCount).map fun i =>
    let localX := rand (s.rngIdx + 1 + 3 * i) * 50
    let localZ := rand (s.rngIdx + 2 + 3 * i) * 50
    let radius := 3 + rand (s.rngIdx + 3 + 3 * i) * 5
    ⟨(cx : ℚ) * 50 + localX, (cz : ℚ) * 50 + localZ, radius⟩
  { s with
    pondLocations := fun c =>
      if c = (cx, cz) then some ponds else s.pondLocations c,
    rngIdx := s.rngIdx + 1 + 3 * pondCount }

/-- `TerrainGenerator.createChunk(chunkX, chunkZ)` (simulation part):
generate ponds for the chunk if absent, then cache the height map computed
from the *current* pond state.  Geometry, material and water meshes are
rendering-only and dropped. -/
def createChunk (rand : ℕ → ℚ) (s : TGState) (cx cz : ℤ) : TGState :=
  let s1 := if (s.pondLocations (cx, cz)).isSome then s
            else generatePondsForChunk rand s cx cz
  let heightMap := generateChunkHeightMap s1 cx cz
  { s1 with
    chunks := fun c => if c = (cx, cz) then some heightMap else s1.chunks c }

/-- JavaScript array indexing with a (possibly negative or too large)
integer index: `undefined` out of range, modelled as `none`. -/
def jsIdx (l : List α) (i : ℤ) : Option α :=
  if i < 0 then none else l[i.toNat]?

/-- The cached-grid path of `TerrainGenerator.getHeightAt`: clamp the local
grid coordinates into the valid index range, read the 4 surrounding grid
samples, and bilinearly interpolate.  `none` models a read of `undefined`
(the totality theorem shows this never happens on well-formed grids). -/
def gridInterp (heightMap : List (List ℚ)) (localX localZ : ℚ) : Option ℚ :=
  let gridX : ℤ := ⌊localX / 1⌋
  let gridZ : ℤ := ⌊localZ / 1⌋
  match jsIdx heightMap 0 with
  | none => none
  | some row0 =>
    let gridSizeX : ℤ := (row0.length : ℤ) - 1
    let gridSizeZ : ℤ := (heightMap.length : ℤ) - 1
    let clampedGridX := max 0 (min gridX gridSizeX)
    let clampedGridZ := max 0 (min gridZ gridSizeZ)
    let x0 := min clampedGridX (gridSizeX - 1)
    let x1 := min (x0 + 1) gridSizeX
    let z0 := min clampedGridZ (gridSizeZ - 1)
    let z1 := min (z0 + 1) gridSizeZ
    match (jsIdx heightMap z0).bind (fun r => jsIdx r x0),
          (jsIdx heightMap z0).bind (fun r => jsIdx r x1),
          (jsIdx heightMap z1).bind (fun r => jsIdx r x0),
          (jsIdx heightMap z1).bind (fun r => jsIdx r x1) with
    | some h00, some h10, some h01, some h11 =>
      let fx := localX / 1 - (x0 : ℚ)
      let fz := localZ / 1 - (z0 : ℚ)
      let top := h00 * (1 - fx) + h10 * fx
      let bottom := h01 * (1 - fx) + h11 * fx
      some (top * (1 - fz) + bottom * fz)
    | _, _, _, _ => none

/-- `TerrainGenerator.getHeightAt(x, z)`: if the containing chunk has no
cached grid, compute `calculateHeightAt` directly; otherwise bilinearly
interpolate the cached grid. -/
def getHeightAt (s : TGState) (x z : ℚ) : Option ℚ :=
  let chunkX : ℤ := ⌊x / 50⌋
  let chunkZ : ℤ := ⌊z / 50⌋
  match s.chunks (chunkX, chunkZ) with
  | none => some (calculateHeightAt s x z)
  | some heightMap =>
    gridInterp heightMap (x - (chunkX : ℚ) * 50) (z - (chunkZ : ℚ) * 50)

/-- A cached grid has the shape `generateChunkHeightMap` produces. -/
def HeightMapWF (hm : List (List ℚ)) : Prop :=
  hm.length = 51 ∧ ∀ row ∈ hm, row.length = 51

/-- All cached grids of the state are well-formed. -/
def TGStateWF (s : TGState) : Prop :=
  ∀ c hm, s.chunks c = some hm → HeightMapWF hm

theorem generateChunkHeightMap_wf (s : TGState) (cx cz : ℤ) :
    HeightMapWF (generateChunkHeightMap s cx cz) := by
  constructor
  · simp [generateChunkHeightMap]
  · intro row hrow
    simp only [generateChunkHeightMap, List.mem_map] at hrow
    obtain ⟨zi, _, rfl⟩ := hrow
    simp

theorem jsIdx_eq_some (l : List α) (i : ℤ) (h0 : 0 ≤ i)
    (hlt : i.toNat < l.length) :
    jsIdx l i = some (l.get ⟨i.toNat, hlt⟩) := by
  unfold jsIdx
  rw [if_neg (by omega)]
  exact List.getElem?_eq_getElem hlt

theorem jsIdx_isSome_mem (l : List α) (i : ℤ) (h0 : 0 ≤ i)
    (hlt : i.toNat < l.length) : ∃ a, jsIdx l i = some a ∧ a ∈ l :=
  ⟨l.get ⟨i.toNat, hlt⟩, jsIdx_eq_some l i h0 hlt, List.get_mem l i.toNat hlt⟩

theorem lookup_isSome (hm : List (List ℚ)) (hlen : hm.length = 51)
    (hrows : ∀ row ∈ hm, row.length = 51) (zi xi : ℤ)
    (hz0 : 0 ≤ zi) (hz1 : zi ≤ 50) (hx0 : 0 ≤ xi) (hx1 : xi ≤ 50) :
    ∃ v, (jsIdx hm zi).bind (fun r => jsIdx r xi) = some v := by
  obtain ⟨row, hre, hrm⟩ := jsIdx_isSome_mem hm zi hz0 (by rw [hlen]; omega)
  have hrl := hrows row hrm
  obtain ⟨v, hve, -⟩ := jsIdx_isSome_mem row xi hx0 (by rw [hrl]; omega)
  exact ⟨v, by rw [hre]; simpa using hve⟩

/-- On a well-formed (51 × 51) grid, all four bilinear-interpolation reads
are in bounds after clamping, so the grid path always produces a value. -/
theorem gridInterp_total (hm : List (List ℚ)) (hwf : HeightMapWF hm)
    (localX localZ : ℚ) : (gridInterp hm localX localZ).isSome := by
  obtain ⟨hlen, hrows⟩ := hwf
  obtain ⟨row0, h0eq, h0mem⟩ :=
    jsIdx_isSome_mem hm 0 le_rfl (by rw [hlen]; omega)
  have h0len := hrows row0 h0mem
  simp only [gridInterp, h0eq, h0len, hlen]
  split
  · rfl
  · rename_i h
    exfalso
    obtain ⟨v1, hv1⟩ := lookup_isSome hm hlen hrows
      ((0 ⊔ ⌊localZ / 1⌋ ⊓ (((51:ℕ):ℤ) - 1)) ⊓ (((51:ℕ):ℤ) - 1 - 1))
      ((0 ⊔ ⌊localX / 1⌋ ⊓ (((51:ℕ):ℤ) - 1)) ⊓ (((51:ℕ):ℤ) - 1 - 1))
      (by omega) (by omega) (by omega) (by omega)
    obtain ⟨v2, hv2⟩ := lookup_isSome hm hlen hrows
      ((0 ⊔ ⌊localZ / 1⌋ ⊓ (((51:ℕ):ℤ) - 1)) ⊓ (((51:ℕ):ℤ) - 1 - 1))
      (((0 ⊔ ⌊localX / 1⌋ ⊓ (((51:ℕ):ℤ) - 1)) ⊓ (((51:ℕ):ℤ) - 1 - 1) + 1) ⊓
        (((51:ℕ):ℤ) - 1))
      (by omega) (by omega) (by omega) (by omega)
    obtain ⟨v3, hv3⟩ := lookup_isSome hm hlen hrows
      (((0 ⊔ ⌊localZ / 1⌋ ⊓ (((51:ℕ):ℤ) - 1)) ⊓ (((51:ℕ):ℤ) - 1 - 1) + 1) ⊓
        (((51:ℕ):ℤ) - 1))
      ((0 ⊔ ⌊localX / 1⌋ ⊓ (((51:ℕ):ℤ) - 1)) ⊓ (((51:ℕ):ℤ) - 1 - 1))
      (by omega) (by omega) (by omega) (by omega)
    obtain ⟨v4, hv4⟩ := lookup_isSome hm hlen hrows
      (((0 ⊔ ⌊localZ / 1⌋ ⊓ (((51:ℕ):ℤ) - 1)) ⊓ (((51:ℕ):ℤ) - 1 - 1) + 1) ⊓
        (((51:ℕ):ℤ) - 1))
      (((0 ⊔ ⌊localX / 1⌋ ⊓ (((51:ℕ):ℤ) - 1)) ⊓ (((51:ℕ):ℤ) - 1 - 1) + 1) ⊓
        (((51:ℕ):ℤ) - 1))
      (by omega) (by omega) (by omega) (by omega)
    exact h v1 v2 v3 v4 hv1 hv2 hv3 hv4

/-- C9 claim: *The elevation query is total for every real input (x, z): if
the containing chunk is not materialized it returns the stateless
`calculateHeightAt` value instead of throwing, and when a cached grid exists
all grid indices used for bilinear interpolation are clamped to the valid
index range, so it never reads out of bounds.*  On any state whose cached
grids have the generated `51 × 51` shape, `getHeightAt` produces a value
for every rational input (no out-of-bounds read, modelled as `none`, can
occur), and on a miss it equals `calculateHeightAt`. -/
theorem c9_height_query_total (s : TGState) (x z : ℚ) (hwf : TGStateWF s) :
    (∃ h, getHeightAt s x z = some h) ∧
    (s.chunks (⌊x / 50⌋, ⌊z / 50⌋) = none →
      getHeightAt s x z = some (calculateHeightAt s x z)) := by
  constructor
  · cases hc : s.chunks (⌊x / 50⌋, ⌊z / 50⌋) with
    | none =>
      refine ⟨calculateHeightAt s x z, ?_⟩
      simp [getHeightAt, hc]
    | some hm =>
      have htot := gridInterp_total hm (hwf _ hm hc)
        (x - ((⌊x / 50⌋ : ℤ) : ℚ) * 50) (z - ((⌊z / 50⌋ : ℤ) : ℚ) * 50)
      obtain ⟨v, hv⟩ := Option.isSome_iff_exists.mp htot
      exact ⟨v, by simp only [getHeightAt, hc]; exact hv⟩
  · intro hc
    simp [getHeightAt, hc]

/-- Witness for C9 on a concrete state with no cached chunk (well-formedness
holds vacuously): the query falls back to the stateless computation. -/
theorem c9_height_query_total_witness :
    let s : TGState := ⟨0, fun _ _ => 0, fun _ => none, fun _ => none, 0⟩
    (∃ h, getHeightAt s 7 (-3) = some h) ∧
    (s.chunks (⌊(7 : ℚ) / 50⌋, ⌊(-3 : ℚ) / 50⌋) = none →
      getHeightAt s 7 (-3) = some (calculateHeightAt s 7 (-3))) :=
  c9_height_query_total ⟨0, fun _ _ => 0, fun _ => none, fun _ => none, 0⟩
    7 (-3) (fun _ hm h => by exact absurd h (by simp))

theorem floor_div_fifty (c : ℤ) (i : ℕ) (hi : i ≤ 49) :
    ⌊((c : ℚ) * 50 + (i : ℚ)) / 50⌋ = c := by
  have hsplit : ((c : ℚ) * 50 + (i : ℚ)) / 50 = (c : ℚ) + (i : ℚ) / 50 := by
    ring
  have hifl : ⌊(i : ℚ) / 50⌋ = 0 := by
    rw [Int.floor_eq_zero_iff]
    constructor
    · positivity
    · rw [div_lt_one (by norm_num)]
      exact_mod_cast Nat.lt_of_le_of_lt hi (by norm_num)
  rw [hsplit, Int.floor_int_add, hifl, add_zero]

/-- Row `k` of a generated height map. -/
theorem generateChunkHeightMap_row (s : TGState) (cx cz : ℤ) (k : ℕ)
    (hk : k < 51) :
    (generateChunkHeightMap s cx cz)[k]? =
      some ((List.range 51).map fun (xi : ℕ) =>
        calculateHeightAt s ((cx : ℚ) * 50 + (xi : ℚ))
          ((cz : ℚ) * 50 + (k : ℚ))) := by
  simp [generateChunkHeightMap, List.getElem?_map, hk]

/-- The double lookup `heightMap[k][m]` of a generated height map is the
direct `calculateHeightAt` sample at the grid point. -/
theorem generateChunkHeightMap_lookup (s : TGState) (cx cz : ℤ) (m k : ℕ)
    (hm50 : m ≤ 50) (hk50 : k ≤ 50) :
    (jsIdx (generateChunkHeightMap s cx cz) (k : ℤ)).bind
        (fun r => jsIdx r (m : ℤ)) =
      some (calculateHeightAt s ((cx : ℚ) * 50 + (m : ℚ))
        ((cz : ℚ) * 50 + (k : ℚ))) := by
  have h1 : jsIdx (generateChunkHeightMap s cx cz) (k : ℤ) =
      some ((List.range 51).map fun (xi : ℕ) =>
        calculateHeightAt s ((cx : ℚ) * 50 + (xi : ℚ))
          ((cz : ℚ) * 50 + (k : ℚ))) := by
    unfold jsIdx
    rw [if_neg (by omega), Int.toNat_natCast]
    exact generateChunkHeightMap_row s cx cz k (by omega)
  rw [h1]
  rw [Option.some_bind]
  unfold jsIdx
  rw [if_neg (by omega), Int.toNat_natCast]
  simp [List.getElem?_map, Nat.lt_succ_of_le hm50]

/-- C2 amended: *at every grid sample point interior to a materialized
chunk, the cached-grid height equals the stateless `calculateHeightAt` —
provided the cached grid was generated from the current pond state.*
(The unconditional claim fails: see the counterexample, where a
neighbouring chunk's ponds were generated after this chunk's grid was
cached.) -/
theorem c2_grid_matches_stateless (s : TGState) (cx cz : ℤ) (i j : ℕ)
    (hi : i ≤ 49) (hj : j ≤ 49)
    (hc : s.chunks (cx, cz) = some (generateChunkHeightMap s cx cz)) :
    getHeightAt s ((cx : ℚ) * 50 + (i : ℚ)) ((cz : ℚ) * 50 + (j : ℚ)) =
      some (calculateHeightAt s ((cx : ℚ) * 50 + (i : ℚ))
        ((cz : ℚ) * 50 + (j : ℚ))) := by
  have hfx := floor_div_fifty cx i hi
  have hfz := floor_div_fifty cz j hj
  have hlx : ((cx : ℚ) * 50 + (i : ℚ)) - (cx : ℚ) * 50 = (i : ℚ) := by ring
  have hlz : ((cz : ℚ) * 50 + (j : ℚ)) - (cz : ℚ) * 50 = (j : ℚ) := by ring
  simp only [getHeightAt, hfx, hfz, hc, hlx, hlz]
  -- now evaluate the grid path at local coordinates (i, j)
  have hgx : ⌊(i : ℚ) / 1⌋ = (i : ℤ) := by
    rw [div_one]
    exact Int.floor_natCast i
  have hgz : ⌊(j : ℚ) / 1⌋ = (j : ℤ) := by
    rw [div_one]
    exact Int.floor_natCast j
  have h0 := generateChunkHeightMap_lookup s cx cz
  have h00 := h0 i j (by omega) (by omega)
  have h10 := h0 (i + 1) j (by omega) (by omega)
  have h01 := h0 i (j + 1) (by omega) (by omega)
  have h11 := h0 (i + 1) (j + 1) (by omega) (by omega)
  push_cast at h10 h01 h11
  have hrow0 := generateChunkHeightMap_row s cx cz 0 (by omega)
  have hr0 : jsIdx (generateChunkHeightMap s cx cz) 0 =
      some ((List.range 51).map fun (xi : ℕ) =>
        calculateHeightAt s ((cx : ℚ) * 50 + (xi : ℚ))
          ((cz : ℚ) * 50 + (0 : ℚ))) := by
    unfold jsIdx
    rw [if_neg (by omega)]
    simpa using hrow0
  have hlen : (generateChunkHeightMap s cx cz).length = 51 := by
    simp [generateChunkHeightMap]
  have hrlen : ((List.range 51).map fun (xi : ℕ) =>
      calculateHeightAt s ((cx : ℚ) * 50 + (xi : ℚ))
        ((cz : ℚ) * 50 + (0 : ℚ))).length = 51 := by
    simp
  simp only [gridInterp, hr0, hrlen, hlen, hgx, hgz]
  have hx0 : (0 ⊔ ((i : ℤ) ⊓ (((51:ℕ):ℤ) - 1))) ⊓ (((51:ℕ):ℤ) - 1 - 1) =
      (i : ℤ) := by omega
  have hz0 : (0 ⊔ ((j : ℤ) ⊓ (((51:ℕ):ℤ) - 1))) ⊓ (((51:ℕ):ℤ) - 1 - 1) =
      (j : ℤ) := by omega
  have hx1 : ((i : ℤ) + 1) ⊓ (((51:ℕ):ℤ) - 1) = (i : ℤ) + 1 := by omega
  have hz1 : ((j : ℤ) + 1) ⊓ (((51:ℕ):ℤ) - 1) = (j : ℤ) + 1 := by omega
  rw [hx0, hz0, hx1, hz1, h00, h10, h01, h11]
  have hfx0 : (i : ℚ) / 1 - ((i : ℤ) : ℚ) = 0 := by
    push_cast
    ring
  have hfz0 : (j : ℚ) / 1 - ((j : ℤ) : ℚ) = 0 := by
    push_cast
    ring
  rw [hfx0, hfz0]
  ring_nf

/-- `calculateHeightAt` reads only the seed, the noise primitive and the
pond lists — never the cached grids. -/
theorem calculateHeightAt_congr (s₁ s₂ : TGState) (hs : s₁.seed = s₂.seed)
    (hn : s₁.noise2D = s₂.noise2D)
    (hp : s₁.pondLocations = s₂.pondLocations) :
    calculateHeightAt s₁ = calculateHeightAt s₂ := by
  funext x z
  unfold calculateHeightAt pondList
  rw [hs, hn, hp]

theorem generateChunkHeightMap_congr (s₁ s₂ : TGState) (hs : s₁.seed = s₂.seed)
    (hn : s₁.noise2D = s₂.noise2D)
    (hp : s₁.pondLocations = s₂.pondLocations) (cx cz : ℤ) :
    generateChunkHeightMap s₁ cx cz = generateChunkHeightMap s₂ cx cz := by
  unfold generateChunkHeightMap
  rw [calculateHeightAt_congr s₁ s₂ hs hn hp]

/-- A fresh `TerrainGenerator` state: seed `0`, the constant-zero noise
primitive, no cached chunks, no ponds, draw index `0`. -/
def tgBase : TGState := ⟨0, fun _ _ => 0, fun _ => none, fun _ => none, 0⟩

/-- State whose chunk `(0, 0)` grid was cached from the current pond state
(there are no ponds), as `createChunk` does on first load. -/
def tgWitness : TGState :=
  { tgBase with
    chunks := fun c =>
      if c = (0, 0) then some (generateChunkHeightMap tgBase 0 0) else none }

/-- Witness for C2 (amended): on a chunk whose cache matches the current
pond state, the cached-grid query at the grid sample point `(0, 0)` equals
the stateless value. -/
theorem c2_grid_matches_stateless_witness :
    getHeightAt tgWitness (((0 : ℤ) : ℚ) * 50 + ((0 : ℕ) : ℚ))
        (((0 : ℤ) : ℚ) * 50 + ((0 : ℕ) : ℚ)) =
      some (calculateHeightAt tgWitness (((0 : ℤ) : ℚ) * 50 + ((0 : ℕ) : ℚ))
        (((0 : ℤ) : ℚ) * 50 + ((0 : ℕ) : ℚ))) :=
  c2_grid_matches_stateless tgWitness 0 0 0 0 (by omega) (by omega) (by
    show (if ((0 : ℤ), (0 : ℤ)) = ((0 : ℤ), (0 : ℤ)) then
        some (generateChunkHeightMap tgBase 0 0) else none) =
      some (generateChunkHeightMap tgWitness 0 0)
    rw [if_pos rfl, generateChunkHeightMap_congr tgBase tgWitness rfl rfl rfl])

/-- The `Math.random()` draws of the counterexample run: chunk `(0, 0)`
gets `⌊0 * 2⌋ = 0` ponds (draw 0); chunk `(1, 0)` gets `⌊(1/2) * 2⌋ = 1`
pond (draw 1) at local position `(1/25 · 50, 0 · 50) = (2, 0)` with radius
`3 + (2/5) · 5 = 5` (draws 2–4). -/
def pondRand : ℕ → ℚ := fun n =>
  if n = 0 then 0 else if n = 1 then 1 / 2 else if n = 2 then 1 / 25
  else if n = 3 then 0 else if n = 4 then 2 / 5 else 0

/-- After `createChunk(0, 0)`: chunk `(0, 0)`'s grid is cached; it saw no
ponds anywhere. -/
def tgCxA : TGState := createChunk pondRand tgBase 0 0

/-- After `createChunk(1, 0)`: chunk `(1, 0)` now owns a pond at world
`(52, 0)` with radius `5`, whose `1.5×`-radius influence reaches into chunk
`(0, 0)` — but chunk `(0, 0)`'s cached grid predates it. -/
def tgCxB : TGState := createChunk pondRand tgCxA 1 0

/-- C2 counterexample: the claim says the cached-grid height equals the
stateless `calculateHeightAt` at grid sample points *unconditionally*.  In
the reachable state `tgCxB` (two `createChunk` calls, in the order
`updateTerrain` makes them), the query at the grid sample point `(49, 0)`
of materialized chunk `(0, 0)` returns the stale cached value `3/5`, while
`calculateHeightAt` now sees chunk `(1, 0)`'s pond (distance `3 < 5` from
its centre) and returns `-3/100`. -/
theorem c2_counterexample :
    getHeightAt tgCxB 49 0 ≠ some (calculateHeightAt tgCxB 49 0) := by
  have h1 : getHeightAt tgCxB 49 0 = some (3 / 5) := by decide
  have h2 : calculateHeightAt tgCxB 49 0 = -3 / 100 := by decide
  rw [h1, h2]
  intro h
  exact absurd (Option.some_injective ℚ h) (by norm_num)

/-! ## Streaming TerrainGenerator revision (src/unnamed/part_002)

The revision driven by `GameManager.updateVisibleChunks`: per-chunk
state machine with a cheap path when the focal chunk is unchanged, a
5 × 5 load square (`loadDistance = 2`), and eviction with one chunk of
hysteresis (`> loadDistance + 1`). -/

namespace P2

/-- `loadDistance = 2`. -/
def loadDistance : ℤ := 2

/-- The streaming state: membership of `terrainChunks` (meshes dropped),
cached `heightMaps`, the current focal chunk, the constructor-supplied
`chunkSize` and the session noise primitive. -/
structure State where
  noise2D : ℚ → ℚ → ℚ
  chunkSize : ℚ
  terrainChunks : ℤ × ℤ → Bool
  heightMaps : ℤ × ℤ → Option (List (List ℚ))
  currentChunkX : ℤ
  currentChunkZ : ℤ

/-- One sample of `generateHeightMapForChunk`'s octave loop: amplitude
starts at `0.5` halving, frequency starts at `0.02` doubling, `* 1.0`
overall scale, clamped below by `0`. -/
def sampleHeight (noise : ℚ → ℚ → ℚ) (wx wz : ℚ) : ℚ :=
  max 0 ((List.range 4).foldl
    (fun h o => h + noise (wx * (2 / 100 * 2 ^ o)) (wz * (2 / 100 * 2 ^ o)) *
      (1 / 2 * (1 / 2) ^ o)) 0 * 1)

/-- `generateHeightMapForChunk(chunkX, chunkZ)`: a square grid of
`ceil(chunkSize / 1) + 1` samples per side at world positions
`(x * 1 + chunkX * chunkSize, z * 1 + chunkZ * chunkSize)`, stored under
the chunk key. -/
def generateHeightMapForChunk (s : State) (cx cz : ℤ) : State :=
  let gridN : ℕ := (⌈s.chunkSize / 1⌉ + 1).toNat
  let heightMap : List (List ℚ) :=
    (List.range gridN).map fun (zi : ℕ) =>
      (List.range gridN).map fun (xi : ℕ) =>
        sampleHeight s.noise2D ((xi : ℚ) * 1 + (cx : ℚ) * s.chunkSize)
          ((zi : ℚ) * 1 + (cz : ℚ) * s.chunkSize)
  { s with
    heightMaps := fun c =>
      if c = (cx, cz) then some heightMap else s.heightMaps c }

/-- `generateChunk(chunkX, chunkZ)`: no-op when the chunk is already
loaded; otherwise generate its height map and mark it loaded (the mesh
construction is rendering-only and dropped). -/
def generateChunk (s : State) (c : ℤ × ℤ) : State :=
  if s.terrainChunks c then s
  else
    let s1 := generateHeightMapForChunk s c.1 c.2
    { s1 with
      terrainChunks := fun c' => if c' = c then true else s1.terrainChunks c' }

/-- The double loop `x = chunkX-2 .. chunkX+2`, `z = chunkZ-2 .. chunkZ+2`
of `updateVisibleChunks`, in source order. -/
def loadSquare (cx cz : ℤ) : List (ℤ × ℤ) :=
  (List.range 5).bind fun (i : ℕ) =>
    (List.range 5).map fun (j : ℕ) =>
      (cx - loadDistance + (i : ℤ), cz - loadDistance + (j : ℤ))

/-- `Math.max(Math.abs(chunkX - currentChunkX), Math.abs(chunkZ -
currentChunkZ))`: Chebyshev distance between chunk coordinates. -/
def cheb (a b : ℤ × ℤ) : ℤ := max |a.1 - b.1| |a.2 - b.2|

/-- `updateVisibleChunks(playerX, playerZ)`: recompute the focal chunk; if
unchanged, do nothing.  Otherwise store the new focal chunk, ensure every
chunk of the 5 × 5 square around it is generated, then drop (chunk and
cached height map) every loaded chunk at Chebyshev distance greater than
`loadDistance + 1` from the new focal chunk. -/
def updateVisibleChunks (s : State) (playerX playerZ : ℚ) : State :=
  let chunkX : ℤ := ⌊playerX / s.chunkSize⌋
  let chunkZ : ℤ := ⌊playerZ / s.chunkSize⌋
  if chunkX ≠ s.currentChunkX ∨ chunkZ ≠ s.currentChunkZ then
    let s1 := { s with currentChunkX := chunkX, currentChunkZ := chunkZ }
    let s2 := (loadSquare chunkX chunkZ).foldl generateChunk s1
    { s2 with
      terrainChunks := fun c =>
        if cheb c (chunkX, chunkZ) > loadDistance + 1 then false
        else s2.terrainChunks c,
      heightMaps := fun c =>
        if s2.terrainChunks c = true ∧ cheb c (chunkX, chunkZ) > loadDistance + 1
        then none else s2.heightMaps c }
  else s

theorem generateChunk_frame (s : State) (c : ℤ × ℤ) :
    (generateChunk s c).currentChunkX = s.currentChunkX ∧
    (generateChunk s c).currentChunkZ = s.currentChunkZ ∧
    (generateChunk s c).chunkSize = s.chunkSize := by
  unfold generateChunk generateHeightMapForChunk
  split <;> exact ⟨rfl, rfl, rfl⟩

theorem foldl_generateChunk_frame (l : List (ℤ × ℤ)) (s : State) :
    (l.foldl generateChunk s).currentChunkX = s.currentChunkX ∧
    (l.foldl generateChunk s).currentChunkZ = s.currentChunkZ ∧
    (l.foldl generateChunk s).chunkSize = s.chunkSize := by
  induction l generalizing s with
  | nil => exact ⟨rfl, rfl, rfl⟩
  | cons d t ih =>
    obtain ⟨h1, h2, h3⟩ := ih (generateChunk s d)
    obtain ⟨g1, g2, g3⟩ := generateChunk_frame s d
    exact ⟨by rw [List.foldl_cons, h1, g1], by rw [List.foldl_cons, h2, g2],
      by rw [List.foldl_cons, h3, g3]⟩

theorem generateChunk_terrain (s : State) (d c : ℤ × ℤ) :
    (generateChunk s d).terrainChunks c =
      (s.terrainChunks c || (c == d && !s.terrainChunks d)) := by
  unfold generateChunk generateHeightMapForChunk
  rcases hd : s.terrainChunks d with _ | _
  · simp only [Bool.false_eq_true, if_false]
    by_cases hc : c = d
    · subst hc
      simp [hd]
    · simp [hc]
  · simp [hd]

theorem foldl_generateChunk_terrain (l : List (ℤ × ℤ)) (s : State)
    (c : ℤ × ℤ) :
    (l.foldl generateChunk s).terrainChunks c =
      (s.terrainChunks c || decide (c ∈ l)) := by
  induction l generalizing s with
  | nil => simp
  | cons d t ih =>
    rw [List.foldl_cons, ih, generateChunk_terrain]
    by_cases hcd : c = d <;>
      rcases hd : s.terrainChunks d with _ | _ <;>
      rcases hc : s.terrainChunks c with _ | _ <;>
      simp_all

theorem mem_loadSquare (c : ℤ × ℤ) (cx cz : ℤ) :
    c ∈ loadSquare cx cz ↔ cheb c (cx, cz) ≤ loadDistance := by
  simp only [loadSquare, List.mem_bind, List.mem_map, List.mem_range,
    cheb, loadDistance]
  constructor
  · rintro ⟨i, hi, j, hj, rfl⟩
    rw [max_le_iff, abs_le, abs_le]
    constructor <;> constructor <;> omega
  · intro h
    rw [max_le_iff, abs_le, abs_le] at h
    refine ⟨(c.1 - cx + 2).toNat, by omega, (c.2 - cz + 2).toNat, by omega, ?_⟩
    have h1 : ((c.1 - cx + 2).toNat : ℤ) = c.1 - cx + 2 := by omega
    have h2 : ((c.2 - cz + 2).toNat : ℤ) = c.2 - cz + 2 := by omega
    rw [h1, h2]
    obtain ⟨a, b⟩ := c
    simp only [Prod.mk.injEq]
    omega

theorem updateVisibleChunks_changed_fields (s : State) (px pz : ℚ)
    (h : ⌊px / s.chunkSize⌋ ≠ s.currentChunkX ∨
      ⌊pz / s.chunkSize⌋ ≠ s.currentChunkZ) :
    (updateVisibleChunks s px pz).terrainChunks = (fun c =>
      if cheb c (⌊px / s.chunkSize⌋, ⌊pz / s.chunkSize⌋) > loadDistance + 1
      then false
      else ((loadSquare ⌊px / s.chunkSize⌋ ⌊pz / s.chunkSize⌋).foldl
        generateChunk
        { s with currentChunkX := ⌊px / s.chunkSize⌋,
                 currentChunkZ := ⌊pz / s.chunkSize⌋ }).terrainChunks c) ∧
    (updateVisibleChunks s px pz).heightMaps = (fun c =>
      if ((loadSquare ⌊px / s.chunkSize⌋ ⌊pz / s.chunkSize⌋).foldl
            generateChunk
            { s with currentChunkX := ⌊px / s.chunkSize⌋,
                     currentChunkZ := ⌊pz / s.chunkSize⌋ }).terrainChunks c
            = true ∧
          cheb c (⌊px / s.chunkSize⌋, ⌊pz / s.chunkSize⌋) > loadDistance + 1
      then none
      else ((loadSquare ⌊px / s.chunkSize⌋ ⌊pz / s.chunkSize⌋).foldl
        generateChunk
        { s with currentChunkX := ⌊px / s.chunkSize⌋,
                 currentChunkZ := ⌊pz / s.chunkSize⌋ }).heightMaps c) := by
  unfold updateVisibleChunks
  rw [if_pos h]
  exact ⟨rfl, rfl⟩

theorem updateVisibleChunks_noop (s : State) (px pz : ℚ)
    (h1 : ⌊px / s.chunkSize⌋ = s.currentChunkX)
    (h2 : ⌊pz / s.chunkSize⌋ = s.currentChunkZ) :
    updateVisibleChunks s px pz = s := by
  unfold updateVisibleChunks
  rw [if_neg]
  push_neg
  exact ⟨h1, h2⟩

theorem updateVisibleChunks_current (s : State) (px pz : ℚ) :
    (updateVisibleChunks s px pz).currentChunkX = ⌊px / s.chunkSize⌋ ∧
    (updateVisibleChunks s px pz).currentChunkZ = ⌊pz / s.chunkSize⌋ ∧
    (updateVisibleChunks s px pz).chunkSize = s.chunkSize := by
  by_cases hguard : ⌊px / s.chunkSize⌋ ≠ s.currentChunkX ∨
      ⌊pz / s.chunkSize⌋ ≠ s.currentChunkZ
  · unfold updateVisibleChunks
    rw [if_pos hguard]
    obtain ⟨f1, f2, f3⟩ := foldl_generateChunk_frame
      (loadSquare ⌊px / s.chunkSize⌋ ⌊pz / s.chunkSize⌋)
      { s with currentChunkX := ⌊px / s.chunkSize⌋,
               currentChunkZ := ⌊pz / s.chunkSize⌋ }
    exact ⟨f1, f2, f3⟩
  · push_neg at hguard
    rw [updateVisibleChunks_noop s px pz hguard.1 hguard.2]
    exact ⟨hguard.1.symm, hguard.2.symm, rfl⟩

end P2

/-- C6 claim: *When the focal chunk coordinate changes, every chunk
coordinate within Chebyshev distance R (inclusive) of the new focal
coordinate becomes Loaded, and only currently Loaded chunks whose Chebyshev
distance from the new focal coordinate exceeds R+1 are transitioned to
Unloaded (their cached grid released).*  For `updateVisibleChunks` with
`R = loadDistance = 2`: (a) every chunk within distance `R` of the new
focal chunk is loaded afterwards; (b) a previously loaded chunk is unloaded
if and only if its distance exceeds `R + 1`; (c) an evicted chunk's cached
height map is released. -/
theorem c6_streaming_load_evict (s : P2.State) (px pz : ℚ)
    (hchange : ⌊px / s.chunkSize⌋ ≠ s.currentChunkX ∨
      ⌊pz / s.chunkSize⌋ ≠ s.currentChunkZ) :
    (∀ c : ℤ × ℤ,
      P2.cheb c (⌊px / s.chunkSize⌋, ⌊pz / s.chunkSize⌋) ≤ P2.loadDistance →
      (P2.updateVisibleChunks s px pz).terrainChunks c = true) ∧
    (∀ c : ℤ × ℤ, s.terrainChunks c = true →
      ((P2.updateVisibleChunks s px pz).terrainChunks c = false ↔
        P2.cheb c (⌊px / s.chunkSize⌋, ⌊pz / s.chunkSize⌋) >
          P2.loadDistance + 1)) ∧
    (∀ c : ℤ × ℤ, s.terrainChunks c = true →
      P2.cheb c (⌊px / s.chunkSize⌋, ⌊pz / s.chunkSize⌋) >
        P2.loadDistance + 1 →
      (P2.updateVisibleChunks s px pz).heightMaps c = none) := by
  obtain ⟨htc, hhm⟩ := P2.updateVisibleChunks_changed_fields s px pz hchange
  refine ⟨?_, ?_, ?_⟩
  · intro c hc
    simp only [htc]
    rw [if_neg (by simp only [P2.loadDistance] at hc ⊢; omega)]
    rw [P2.foldl_generateChunk_terrain]
    have : c ∈ P2.loadSquare ⌊px / s.chunkSize⌋ ⌊pz / s.chunkSize⌋ :=
      (P2.mem_loadSquare c _ _).mpr hc
    simp [this]
  · intro c htrue
    simp only [htc]
    by_cases hfar :
        P2.cheb c (⌊px / s.chunkSize⌋, ⌊pz / s.chunkSize⌋) >
          P2.loadDistance + 1
    · rw [if_pos hfar]
      simp [hfar]
    · rw [if_neg hfar]
      rw [P2.foldl_generateChunk_terrain]
      simp [htrue, hfar]
  · intro c htrue hfar
    simp only [hhm]
    rw [if_pos ⟨by rw [P2.foldl_generateChunk_terrain]; simp [htrue], hfar⟩]

/-- Witness for C6: one loaded chunk at `(0, 0)`, focal point moved to
`(130, 0)` (new focal chunk `(2, 0)`).  The ring corner `(4, 2)` (distance
2) is loaded; `(0, 0)` (distance 2 ≤ 3) is not evicted; and the far chunk
`(-2, 0)` (distance 4 > 3), loaded beforehand, has its cached grid
released. -/
theorem c6_streaming_load_evict_witness :
    let s : P2.State := ⟨fun _ _ => 0, 50,
      fun c => decide (c = (0, 0) ∨ c = (-2, 0)),
      fun c => if c = (0, 0) ∨ c = (-2, 0) then some [[1]] else none, 0, 0⟩
    ((P2.updateVisibleChunks s 130 0).terrainChunks (4, 2) = true) ∧
    ((P2.updateVisibleChunks s 130 0).terrainChunks (0, 0) = false ↔
      P2.cheb (0, 0) (⌊(130 : ℚ) / 50⌋, ⌊(0 : ℚ) / 50⌋) >
        P2.loadDistance + 1) ∧
    ((P2.updateVisibleChunks s 130 0).heightMaps (-2, 0) = none) := by
  intro s
  obtain ⟨ha, hb, hc⟩ := c6_streaming_load_evict s 130 0 (by left; decide)
  exact ⟨ha (4, 2) (by decide), hb (0, 0) (by decide),
    hc (-2, 0) (by decide) (by decide)⟩

/-- C7 claim: *Updating the focal point is idempotent at chunk granularity:
calling the streaming update twice in a row with positions mapping to the
same focal chunk coordinate performs no chunk creations and no evictions on
the second call, and leaves the loaded-chunk set unchanged.*  The second
call returns the state of the first call unchanged (the cheap-path guard
fires). -/
theorem c7_streaming_idempotent (s : P2.State) (px₁ pz₁ px₂ pz₂ : ℚ)
    (hx : ⌊px₂ / s.chunkSize⌋ = ⌊px₁ / s.chunkSize⌋)
    (hz : ⌊pz₂ / s.chunkSize⌋ = ⌊pz₁ / s.chunkSize⌋) :
    P2.updateVisibleChunks (P2.updateVisibleChunks s px₁ pz₁) px₂ pz₂ =
      P2.updateVisibleChunks s px₁ pz₁ := by
  obtain ⟨h1, h2, h3⟩ := P2.updateVisibleChunks_current s px₁ pz₁
  exact P2.updateVisibleChunks_noop _ px₂ pz₂ (by rw [h3, hx, h1])
    (by rw [h3, hz, h2])

/-- Witness for C7: two positions in chunk `(2, 0)`; the second update is
the identity on the state produced by the first. -/
theorem c7_streaming_idempotent_witness :
    let s : P2.State := ⟨fun _ _ => 0, 50, fun _ => false,
      fun _ => none, 0, 0⟩
    P2.updateVisibleChunks (P2.updateVisibleChunks s 130 0) 145 49 =
      P2.updateVisibleChunks s 130 0 :=
  c7_streaming_idempotent _ 130 0 145 49 (by decide) (by decide)

/-! ## SceneryGenerator (src/client/src/lib/game/SceneryGenerator.ts)

`generateScenery` consumes `Math.random()` draws in a fixed order: per
house 9 draws (distance, angle, rotation, then 6 mesh-only draws inside
`createHouse`), per tree 4 draws (x, z, then 2 mesh-only draws inside
`createTree`), and 45 mesh-only draws inside `createGarden` (3 per plant);
fences, shed, mailbox and bench draw nothing.  Call site `k` of the run
reads `rand k`; the houses occupy draws `0‥26`, the trees draws `27‥86`,
the garden draws `87‥131` — 132 draws in all.  `Math.PI`, `Math.cos` and
`Math.sin` are transcendental and appear as the oracle parameters `piQ`,
`cosO`, `sinO`. -/

/-- The `SceneryType` string union. -/
inductive SceneryType where
  | House
  | Tree
  | Fence
  | Garden
  | Shed
  | Mailbox
  | Bench
deriving DecidableEq, Repr

/-- One entry of `sceneryObjects` (the `mesh` field is rendering-only and
dropped). -/
structure SceneryObject where
  type : SceneryType
  position : Vec3
  rotation : ℚ
  scale : ℚ
  discovered : Bool
deriving DecidableEq, Repr

/-- House `i` of `generateScenery`: distance `20 + rand·20` (draw `9i`),
angle `rand·2π` (draw `9i+1`), position on that circle at the terrain
height, rotation `rand·2π` (draw `9i+2`).  Draws `9i+3 ‥ 9i+8` (style,
colours, box dimensions) shape only the mesh. -/
def houseObject (piQ : ℚ) (cosO sinO : ℚ → ℚ) (rand : ℕ → ℚ) (t : TGState)
    (i : ℕ) : SceneryObject :=
  let distance := 20 + rand (9 * i) * 20
  let angle := rand (9 * i + 1) * piQ * 2
  let x := cosO angle * distance
  let z := sinO angle * distance
  let y := (getHeightAt t x z).getD 0
  ⟨.House, ⟨x, y, z⟩, rand (9 * i + 2) * piQ * 2, 1, false⟩

/-- Tree `j` of `generateScenery`: uniform position in 80 % of the visible
square (`terrainSize.width = 50 · 5 = 250`, so `rand·200 − 100` on each
axis; draws `27+4j` and `27+4j+1`).  Draws `27+4j+2` and `27+4j+3` (species
and foliage colour) shape only the mesh. -/
def treeObject (rand : ℕ → ℚ) (t : TGState) (j : ℕ) : SceneryObject :=
  let x := rand (27 + 4 * j) * (250 * (8 / 10)) - 125 * (8 / 10)
  let z := rand (27 + 4 * j + 1) * (250 * (8 / 10)) - 125 * (8 / 10)
  let y := (getHeightAt t x z).getD 0
  ⟨.Tree, ⟨x, y, z⟩, 0, 1, false⟩

/-- The 40-segment fence rectangle: start `(-15, -15)`, direction cycling
right/down/left/up every 10 segments, step 2; rotation
`direction · π / 2`.  The fuel argument `n` counts the remaining segments,
so segment `i` of the source loop runs at `n = 40 - i`. -/
def fenceLoop (piQ : ℚ) (t : TGState) :
    ℕ → ℚ → ℚ → ℕ → List SceneryObject
  | 0, _, _, _ => []
  | n + 1, fenceX, fenceZ, dir =>
    let y := (getHeightAt t fenceX fenceZ).getD 0
    let obj : SceneryObject :=
      ⟨.Fence, ⟨fenceX, y, fenceZ⟩, (dir : ℚ) * piQ / 2, 1, false⟩
    let fenceX' := if dir = 0 then fenceX + 2
      else if dir = 2 then fenceX - 2 else fenceX
    let fenceZ' := if dir = 1 then fenceZ + 2
      else if dir = 3 then fenceZ - 2 else fenceZ
    let dir' := if (40 - n) % 10 = 0 then (dir + 1) % 4 else dir
    obj :: fenceLoop piQ t n fenceX' fenceZ' dir'

/-- `SceneryGenerator.generateScenery()`: 3 houses, 15 trees, 40 fence
segments, then one garden, shed, mailbox and bench at fixed positions, in
push order.  Every object starts `discovered := false`. -/
def generateScenery (piQ : ℚ) (cosO sinO : ℚ → ℚ) (rand : ℕ → ℚ)
    (t : TGState) : List SceneryObject :=
  let houses := (List.range 3).map (houseObject piQ cosO sinO rand t)
  let trees := (List.range 15).map (treeObject rand t)
  let fences := fenceLoop piQ t 40 (-15) (-15) 0
  let garden : SceneryObject :=
    ⟨.Garden, ⟨10, (getHeightAt t 10 10).getD 0, 10⟩, 0, 1, false⟩
  let shed : SceneryObject :=
    ⟨.Shed, ⟨-12, (getHeightAt t (-12) 8).getD 0, 8⟩, piQ / 4, 1, false⟩
  let mailbox : SceneryObject :=
    ⟨.Mailbox, ⟨15, (getHeightAt t 15 (-15)).getD 0, -15⟩, 0, 1, false⟩
  let bench : SceneryObject :=
    ⟨.Bench, ⟨5, (getHeightAt t 5 (-10)).getD 0, -10⟩, piQ, 1, false⟩
  houses ++ trees ++ fences ++ [garden, shed, mailbox, bench]

/-- Two draw streams for the counterexample: they model the same session
seed (the terrain state is shared) but, as `Math.random()` is stateful, the
second generation run reads different draws. -/
def sceneryRand1 : ℕ → ℚ := fun _ => 0

def sceneryRand2 : ℕ → ℚ := fun n => if n = 0 then 1 / 2 else 0

/-- C1 counterexample: the claim says the object set is a function of the
session seed and chunk coordinate alone ("never … a stateful RNG").  With
the terrain (hence seed) fixed, two generation runs whose `Math.random()`
streams differ only in the first draw produce different object sets: the
first house lands at distance 20 versus 30 from the origin. -/
theorem c1_counterexample :
    generateScenery 0 (fun _ => 1) (fun _ => 0) sceneryRand1 tgBase ≠
      generateScenery 0 (fun _ => 1) (fun _ => 0) sceneryRand2 tgBase := by
  decide

/-- C1 amended: *scenery generation is deterministic in the consumed
`Math.random()` draw sequence and the terrain state: two runs over the same
terrain whose streams agree on the 132 consumed draws produce identical
object sets.*  (It is not a pure function of seed and chunk coordinate:
`Math.random()` is stateful, so a regeneration after `reset()` reads
different draws — the counterexample.) -/
theorem c1_deterministic_in_draws (piQ : ℚ) (cosO sinO : ℚ → ℚ)
    (rand₁ rand₂ : ℕ → ℚ) (t : TGState)
    (hagree : ∀ n < 132, rand₁ n = rand₂ n) :
    generateScenery piQ cosO sinO rand₁ t =
      generateScenery piQ cosO sinO rand₂ t := by
  unfold generateScenery
  have hh : (List.range 3).map (houseObject piQ cosO sinO rand₁ t) =
      (List.range 3).map (houseObject piQ cosO sinO rand₂ t) := by
    refine List.map_congr_left fun i hi => ?_
    rw [List.mem_range] at hi
    unfold houseObject
    rw [hagree (9 * i) (by omega), hagree (9 * i + 1) (by omega),
      hagree (9 * i + 2) (by omega)]
  have ht : (List.range 15).map (treeObject rand₁ t) =
      (List.range 15).map (treeObject rand₂ t) := by
    refine List.map_congr_left fun j hj => ?_
    rw [List.mem_range] at hj
    unfold treeObject
    rw [hagree (27 + 4 * j) (by omega), hagree (27 + 4 * j + 1) (by omega)]
  rw [hh, ht]

/-- Witness for C1 (amended): a stream differing only at draw 200 (never
consumed) generates the identical object set. -/
theorem c1_deterministic_in_draws_witness :
    generateScenery 0 (fun _ => 1) (fun _ => 0) (fun _ => 0) tgBase =
      generateScenery 0 (fun _ => 1) (fun _ => 0)
        (fun n => if n = 200 then 7 else 0) tgBase :=
  c1_deterministic_in_draws 0 (fun _ => 1) (fun _ => 0) _ _ tgBase
    (by decide)

/-- `playerPosition.distanceTo(scenery.position) < 5`
(`discoveryRadius = 5`), the full 3-D Euclidean distance. -/
def inDiscoveryRange (p : Vec3) (o : SceneryObject) : Bool :=
  ratSqrt ((p.x - o.position.x) * (p.x - o.position.x) +
      (p.y - o.position.y) * (p.y - o.position.y) +
      (p.z - o.position.z) * (p.z - o.position.z)) < 5

/-- `SceneryGenerator.checkForDiscovery(playerPosition)`: walk
`sceneryObjects` in order, skip discovered entries, and at the first
undiscovered entry within range mark it discovered, emit one event and
`break`.  Returns the updated list and the index of the object whose event
fired (the emitted label is cosmetic, drawn from per-type name pools with
`Math.random()`, and not modelled). -/
def checkForDiscovery (p : Vec3) :
    List SceneryObject → List SceneryObject × Option ℕ
  | [] => ([], none)
  | o :: rest =>
    if o.discovered then
      let r := checkForDiscovery p rest
      (o :: r.1, r.2.map (· + 1))
    else if inDiscoveryRange p o then
      ({ o with discovered := true } :: rest, some 0)
    else
      let r := checkForDiscovery p rest
      (o :: r.1, r.2.map (· + 1))

/-- A session: one `checkForDiscovery` per focal position, in order,
collecting the emitted events. -/
def runDiscovery :
    List Vec3 → List SceneryObject → List SceneryObject × List (Option ℕ)
  | [], l => (l, [])
  | p :: ps, l =>
    let r := checkForDiscovery p l
    let rest := runDiscovery ps r.1
    (rest.1, r.2 :: rest.2)

/-- `checkForDiscovery` emits the first (least-index) undiscovered object
within range, exactly as `List.findIdx?` describes. -/
theorem checkForDiscovery_emits (p : Vec3) (l : List SceneryObject) :
    (checkForDiscovery p l).2 =
      l.findIdx? (fun o => !o.discovered && inDiscoveryRange p o) := by
  induction l with
  | nil => rfl
  | cons o rest ih =>
    rcases hd : o.discovered with _ | _
    · rcases hr : inDiscoveryRange p o with _ | _
      · simp [checkForDiscovery, hd, hr, ih, List.findIdx?_cons]
      · simp [checkForDiscovery, hd, hr, List.findIdx?_cons]
    · simp [checkForDiscovery, hd, ih, List.findIdx?_cons]

/-- `checkForDiscovery` never resets a discovered flag. -/
theorem checkForDiscovery_mono (p : Vec3) :
    ∀ (l : List SceneryObject) (i : ℕ),
      (l[i]?.map SceneryObject.discovered = some true) →
      ((checkForDiscovery p l).1[i]?.map SceneryObject.discovered
        = some true) := by
  intro l
  induction l with
  | nil => intro i h; exact h
  | cons o rest ih =>
    intro i h
    rcases hd : o.discovered with _ | _
    · rcases hr : inDiscoveryRange p o with _ | _
      · cases i with
        | zero => simpa [checkForDiscovery, hd, hr] using h
        | succ n =>
          simp only [checkForDiscovery, hd, hr, Bool.false_eq_true, if_false,
            if_true, List.getElem?_cons_succ] at h ⊢
          exact ih n h
      · cases i with
        | zero => simpa [checkForDiscovery, hd, hr] using h
        | succ n =>
          simpa [checkForDiscovery, hd, hr] using h
    · cases i with
      | zero => simpa [checkForDiscovery, hd] using h
      | succ n =>
        simp only [checkForDiscovery, hd, if_true,
          List.getElem?_cons_succ] at h ⊢
        exact ih n h

/-- The emitted object was undiscovered before the call. -/
theorem checkForDiscovery_emit_requires (p : Vec3) :
    ∀ (l : List SceneryObject) (i : ℕ),
      (checkForDiscovery p l).2 = some i →
      l[i]?.map SceneryObject.discovered = some false := by
  intro l
  induction l with
  | nil => intro i h; exact absurd h (by simp [checkForDiscovery])
  | cons o rest ih =>
    intro i h
    rcases hd : o.discovered with _ | _
    · rcases hr : inDiscoveryRange p o with _ | _
      · simp only [checkForDiscovery, hd, hr, Bool.false_eq_true, if_false,
          Option.map_eq_some'] at h
        obtain ⟨n, hn, rfl⟩ := h
        simpa using ih n hn
      · simp only [checkForDiscovery, hd, hr, Bool.false_eq_true, if_false,
          if_true, Option.some.injEq] at h
        subst h
        simp [hd]
    · simp only [checkForDiscovery, hd, if_true, Option.map_eq_some'] at h
      obtain ⟨n, hn, rfl⟩ := h
      simpa using ih n hn

/-- The emitted object is discovered after the call. -/
theorem checkForDiscovery_emit_sets (p : Vec3) :
    ∀ (l : List SceneryObject) (i : ℕ),
      (checkForDiscovery p l).2 = some i →
      ((checkForDiscovery p l).1[i]?.map SceneryObject.discovered
        = some true) := by
  intro l
  induction l with
  | nil => intro i h; exact absurd h (by simp [checkForDiscovery])
  | cons o rest ih =>
    intro i h
    rcases hd : o.discovered with _ | _
    · rcases hr : inDiscoveryRange p o with _ | _
      · simp only [checkForDiscovery, hd, hr, Bool.false_eq_true, if_false,
          Option.map_eq_some'] at h ⊢
        obtain ⟨n, hn, rfl⟩ := h
        simpa using ih n hn
      · simp only [checkForDiscovery, hd, hr, Bool.false_eq_true, if_false,
          if_true, Option.some.injEq] at h
        subst h
        simp [checkForDiscovery, hd, hr]
    · simp only [checkForDiscovery, hd, if_true, Option.map_eq_some'] at h ⊢
      obtain ⟨n, hn, rfl⟩ := h
      simpa using ih n hn

/-- A discovered object never emits again, over any further sequence of
calls. -/
theorem runDiscovery_no_reemit (ps : List Vec3) :
    ∀ (l : List SceneryObject) (i : ℕ),
      (l[i]?.map SceneryObject.discovered = some true) →
      some i ∉ (runDiscovery ps l).2 := by
  induction ps with
  | nil => intro l i _ h; exact absurd h (by simp [runDiscovery])
  | cons p ps ih =>
    intro l i hdisc hmem
    simp only [runDiscovery, List.mem_cons] at hmem
    rcases hmem with hemit | hmem
    · have := checkForDiscovery_emit_requires p l i hemit.symm
      rw [hdisc] at this
      exact absurd (Option.some_injective _ this) (by simp)
    · exact ih (checkForDiscovery p l).1 i
        (checkForDiscovery_mono p l i hdisc) hmem

/-- C8 claim: *For every scenery object, the discovery event is emitted
exactly once over the whole session — even if the focal point leaves and
re-enters the object's discovery radius multiple times — and each
discovery-check call emits at most one event (only the first undiscovered
object in iteration order that is within radius).*  First conjunct: over
any call sequence, the event for object `i` fires at most once (the call
that fires it marks the object discovered; the flag is never reset, and an
already-discovered object never emits).  Second conjunct: a single call
emits exactly the event of the first undiscovered in-range object in
iteration order (`List.findIdx?`), hence at most one event per call. -/
theorem c8_discovery_once (l : List SceneryObject) (calls : List Vec3)
    (i : ℕ) (p : Vec3) :
    (runDiscovery calls l).2.countP (· == some i) ≤ 1 ∧
    (checkForDiscovery p l).2 =
      l.findIdx? (fun o => !o.discovered && inDiscoveryRange p o) := by
  refine ⟨?_, checkForDiscovery_emits p l⟩
  induction calls generalizing l with
  | nil => simp [runDiscovery]
  | cons q qs ih =>
    simp only [runDiscovery, List.countP_cons]
    rcases hq : (checkForDiscovery q l).2 with _ | j
    · simpa using ih (checkForDiscovery q l).1
    · by_cases hij : j = i
      · subst hij
        have hzero :
            (runDiscovery qs (checkForDiscovery q l).1).2.countP
              (· == some j) = 0 := by
          rw [List.countP_eq_zero]
          intro e he
          have hne : e ≠ some j := by
            intro he'
            subst he'
            exact runDiscovery_no_reemit qs (checkForDiscovery q l).1 j
              (checkForDiscovery_emit_sets q l j hq) he
          simpa using hne
        simp [hzero]
      · have := ih (checkForDiscovery q l).1
        have hne : ((some j : Option ℕ) == some i) = false := by
          simp [hij]
        rw [hne]
        simpa using this

end Mow
